import Mathlib

/-!
Verification of the Be-lens stack module (`pcdsdevices/lens.py`).

The Python code is shallowly embedded: machine floats become real numbers,
Python division (which raises `ZeroDivisionError` on a zero denominator)
becomes `pydiv` returning `Except`, `np.sqrt` becomes `Real.sqrt` (numpy
returns NaN on a negative argument and raises nothing; where that matters we
additionally prove the argument is negative), and stateful interactions with
the external attenuator and the file system are modelled by explicit command
traces and state passing.
-/

namespace LensPy

/-- Python exceptions that the embedded code can raise. -/
inductive PyError
  | zeroDivisionError
  | indexError
  | fileNotFoundError
  deriving DecidableEq, Repr

/-- Embedding of Python float division `x / y`: raises `ZeroDivisionError`
when the denominator is zero, otherwise returns the real quotient.
Divisions by nonzero numeric literals (such as `2.35` or `np.pi`) cannot
raise and are embedded as plain real division. -/
noncomputable def pydiv (x y : ℝ) : Except PyError ℝ :=
  if y = 0 then .error .zeroDivisionError else .ok (x / y)

/-- Embedding of `calcFocalLengthForSingleLens`: `f = (radius/2)/delta`.  The index
deviation `delta` is the value of the external collaborator call
`getDelta(E, material, density)` (periodictable lookup), passed as a
parameter. -/
noncomputable def calcFocalLengthForSingleLens (delta radius : ℝ) :
    Except PyError ℝ :=
  pydiv (radius / 2) delta

/-- One iteration of the accumulation loop of `calcFocalLength`:
`num = lensset[2*i]; rad = lensset[2*i+1]; if rad is not None:
ftot_inverse += num / f_single(rad)`.  The flat Python list
`(n1, r1, n2, r2, ...)` is modelled as the list of `(count, radius)` pairs
the loop iterates over. -/
noncomputable def ftotInverseStep (delta : ℝ) (acc : ℝ) (elem : ℝ × Option ℝ) :
    Except PyError ℝ :=
  match elem.2 with
  | none => .ok acc
  | some rad => do
      let f ← calcFocalLengthForSingleLens delta rad
      let q ← pydiv elem.1 f
      .ok (acc + q)

/-- Embedding of `calcFocalLength`: accumulate `ftot_inverse` over the lens set starting
from `0`, then return `1./ftot_inverse` (a plain Python division, which
raises `ZeroDivisionError` when the accumulated inverse is zero). -/
noncomputable def calcFocalLength (delta : ℝ) (lensset : List (ℝ × Option ℝ)) :
    Except PyError ℝ := do
  let ftot_inverse ← lensset.foldlM (ftotInverseStep delta) 0
  pydiv 1 ftot_inverse

/-- Embedding of `calcDistanceForSize(sizeFWHM, lensset, E, fwhm_unfocused)`:
Gaussian-beam inversion.  Follows the source line by line; the two
symmetric roots produced by `np.asarray([-1., 1.])` become an ordered
pair.  `np.sqrt` of a negative argument yields NaN in numpy and raises
nothing; it is embedded as `Real.sqrt` (whose value on negatives is never
relied upon: where the argument can be negative we prove that fact
separately). -/
noncomputable def calcDistanceForSize (delta : ℝ)
    (lensset : List (ℝ × Option ℝ)) (E fwhm_unfocused sizeFWHM : ℝ) :
    Except PyError (ℝ × ℝ) := do
  let size := sizeFWHM * 2 / 2.35
  let f ← calcFocalLength delta lensset
  let lam0 ← pydiv 12.398 E
  let lam := lam0 * 1e-10
  let w_unfocused := fwhm_unfocused * 2 / 2.35
  let waist ← pydiv (lam / Real.pi * f) w_unfocused
  let rayleigh_range ← pydiv (Real.pi * waist ^ 2) lam
  let ratio ← pydiv size waist
  let s := Real.sqrt (ratio ^ 2 - 1)
  .ok (-1 * s * rayleigh_range + f, 1 * s * rayleigh_range + f)

/-- Embedding of `calcBeamFWHM(E, lensset, distance, material, density, fwhm_unfocused)`:
forward Gaussian propagation, returning the FWHM (`size*2.35/2`).  The
`printsummary` branch only prints and is omitted. -/
noncomputable def calcBeamFWHM (delta : ℝ) (lensset : List (ℝ × Option ℝ))
    (E fwhm_unfocused distance : ℝ) : Except PyError ℝ := do
  let f ← calcFocalLength delta lensset
  let lam0 ← pydiv 1.2398 E
  let lam := lam0 * 1e-9
  let w_unfocused := fwhm_unfocused * 2 / 2.35
  let waist ← pydiv (lam / Real.pi * f) w_unfocused
  let rayleigh_range ← pydiv (Real.pi * waist ^ 2) lam
  let q ← pydiv ((distance - f) ^ 2) (rayleigh_range ^ 2)
  let size := waist * Real.sqrt (1 + q)
  .ok (size * 2.35 / 2)

/-- A numpy value flowing through `forward`: either a Python float or the
two-element array produced by `calcDistanceForSize`. -/
inductive NpVal
  | scalar (x : ℝ)
  | pair (a b : ℝ)

/-- Componentwise application (numpy broadcasting of scalar
arithmetic over an array). -/
def NpVal.map (g : ℝ → ℝ) : NpVal → NpVal
  | .scalar x => .scalar (g x)
  | .pair a b => .pair (g a) (g b)

/-- Embedding of `np.isclose(a, b)` with the default tolerances
`rtol=1e-05, atol=1e-08`. -/
def npIsclose (a b : ℝ) : Prop := |a - b| ≤ 1e-8 + 1e-5 * |b|

noncomputable instance : ∀ a b, Decidable (npIsclose a b) := fun a b =>
  inferInstanceAs (Decidable (|a - b| ≤ 1e-8 + 1e-5 * |b|))

/-- The `RealPosition(x=..., y=..., z=...)` named tuple returned by
`forward`. -/
structure RealPosition where
  x : NpVal
  y : NpVal
  z : NpVal

/-- Embedding of `LensStackBase.forward`.  Parameters: the lens-stack configuration
(`delta` for the external index lookup, `lensset`, `E`, `beamsizeUnfocused`,
`_zoffset`, `_zdir`), the six preset positions
`(x1, y1, z1, x2, y2, z2)` read from the motor preset store (`none` when the
presets are missing, the `AttributeError` path in which the function logs
and returns `None`), the current `beam_size.position` readback, and the
requested pseudo position `(calib_z, beam_size)`. -/
noncomputable def forward (delta : ℝ) (lensset : List (ℝ × Option ℝ))
    (E beamsizeUnfocused zoffset zdir : ℝ)
    (presets : Option (ℝ × ℝ × ℝ × ℝ × ℝ × ℝ))
    (current_beam_size pp_calib_z pp_beam_size : ℝ) :
    Except PyError (Option RealPosition) := do
  let z_pos ← (if ¬ npIsclose pp_beam_size current_beam_size then do
      let dist ← calcDistanceForSize delta lensset E beamsizeUnfocused
        pp_beam_size
      pure (NpVal.pair ((dist.1 - zoffset) * zdir * 1000)
        ((dist.2 - zoffset) * zdir * 1000))
    else
      pure (NpVal.scalar pp_calib_z))
  match presets with
  | none => pure none
  | some (p0, p1, p2, p3, p4, p5) => do
      let slope_x ← pydiv (p0 - p3) (p2 - p5)
      let slope_y ← pydiv (p1 - p4) (p2 - p5)
      let x_pos := z_pos.map (fun zp => slope_x * (zp - p2) + p0)
      let y_pos := z_pos.map (fun zp => slope_y * (zp - p2) + p1)
      pure (some ⟨x_pos, y_pos, z_pos⟩)

/-! ### Safety interlock (`_makeSafe`) and `move`

The external attenuator collaborator exposes a list of filters, each with a
thickness (a machine float, embedded as a rational so that concrete runs
are decidable), its current inserted state, and the external mechanism's
response `insertWorks`: the inserted state that a re-check reads after
`insert()` followed by the settle wait has been commanded. -/

structure AttFilter where
  thickness : ℚ
  inserted : Bool
  insertWorks : Bool
  deriving DecidableEq, Repr, Inhabited

/-- A command issued to the external attenuator, identified by the index of
the filter in the filter list. -/
inductive AttCommand
  | insert (i : ℕ)
  | settle
  deriving DecidableEq, Repr

/-- The selection loop of `_makeSafe`:
`for f in self._attObj.filters: t = f.thickness.get(); if t > thk:
filt, thk = f, t`, with the accumulator `(index of filt, filt, thk)` and
`i` the index of the next element. -/
def selectLoop : List AttFilter → ℕ × AttFilter × ℚ → ℕ → ℕ × AttFilter × ℚ
  | [], acc, _ => acc
  | f :: rest, acc, i =>
      selectLoop rest (if f.thickness > acc.2.2 then (i, f, f.thickness) else acc)
        (i + 1)

/-- Embedding of `LensStackBase._makeSafe`.  `att = none` models `self._attObj is None`
(prints a warning and returns `False`); an empty filter list makes
`filters[0]` raise `IndexError`.  Returns the boolean result together with
the trace of commands issued to the attenuator. -/
def makeSafe (att : Option (List AttFilter)) :
    Except PyError (Bool × List AttCommand) :=
  match att with
  | none => .ok (false, [])
  | some [] => .error .indexError
  | some (f0 :: rest) =>
      let sel := selectLoop (f0 :: rest) (0, f0, 0) 0
      let filt := sel.2.1
      if filt.inserted then
        .ok (true, [])
      else
        if filt.insertWorks then .ok (true, [.insert sel.1, .settle])
        else .ok (false, [.insert sel.1, .settle])

/-- Index of the first filter of maximal thickness (the selection the spec
describes: maximum thickness, first element wins ties). -/
def firstMaxIdx (fs : List AttFilter) : ℕ :=
  fs.findIdx (fun f => decide (∀ g ∈ fs, g.thickness ≤ f.thickness))

/-- Post-state of the filter list after the commands of a `_makeSafe` run:
an `insert i` command leaves filter `i` in the state its mechanism settles
to (`insertWorks`); `settle` changes nothing. -/
def applyCommands (fs : List AttFilter) (cmds : List AttCommand) :
    List AttFilter :=
  cmds.foldl
    (fun cur c =>
      match c with
      | .insert i => cur.set i { cur.getD i default with
          inserted := (cur.getD i default).insertWorks }
      | .settle => cur)
    fs

/-- An externally visible event of a `move` call: either a command to the
attenuator (from the interlock) or a motion command handed to the
underlying positioner (`super().move(position, ...)`). -/
inductive MoveEvent (α : Type)
  | att (c : AttCommand)
  | motion (target : α)
  deriving DecidableEq, Repr

/-- Embedding of `LensStackBase.move`: runs `_makeSafe()` and hands the position to the
underlying positioner only when the interlock returned exactly `True`
(otherwise the method falls through and returns `None`).  The result is
the ordered event trace together with the value returned to the caller. -/
def move (att : Option (List AttFilter)) (position : ℚ) :
    Except PyError (List (MoveEvent ℚ) × Option ℚ) :=
  match makeSafe att with
  | .error e => .error e
  | .ok (safe, cmds) =>
      if safe = true then
        .ok (cmds.map .att ++ [.motion position], some position)
      else
        .ok (cmds.map .att, none)

/-! ### Lens-configuration persistence (`LensStack.CreateLens`) -/

/-- Contents of a file in the persistence model: either raw prior contents,
or the result of `yaml.dump` applied to a Python string, or to a lens
set. -/
inductive YamlDoc
  | raw (s : String)
  | ofStr (s : String)
  | ofLens (l : List (ℚ × Option ℚ))
  deriving DecidableEq, Repr

/-- Embedding of `shutil.copyfile(src, dst)` over a file system modelled as a partial
map from paths to contents; raises when the source is missing. -/
def copyfile (src dst : String) (fs : String → Option YamlDoc) :
    Except PyError (String → Option YamlDoc) :=
  match fs src with
  | none => .error .fileNotFoundError
  | some d => .ok (fun p => if p = dst then some d else fs p)

/-- Embedding of `LensStack.CreateLens(lensset)`:
`shutil.copyfile(self.path, self.path + str(date.today()))` followed by
`with open(self.path + str(date.today()), "w") as f: yaml.dump(self.path, f)`.
`today` is the value of `str(date.today())`.  Note that the source opens
the dated path (not `self.path`) for writing and dumps the path string
(not `lensset`). -/
def CreateLens (path today : String) (lensset : List (ℚ × Option ℚ))
    (fs : String → Option YamlDoc) :
    Except PyError (String → Option YamlDoc) := do
  let fs1 ← copyfile path (path ++ today) fs
  .ok (fun p => if p = path ++ today then some (.ofStr path) else fs1 p)

/-! ## Helper lemmas -/

theorem pydiv_ok (x : ℝ) {y : ℝ} (hy : y ≠ 0) : pydiv x y = .ok (x / y) := by
  simp [pydiv, hy]

theorem pydiv_zero (x : ℝ) : pydiv x 0 = .error .zeroDivisionError := by
  simp [pydiv]

theorem ok_bind {α β : Type} (a : α) (f : α → Except PyError β) :
    (Except.ok a : Except PyError α) >>= f = f a := rfl

theorem error_bind {α β : Type} (e : PyError) (f : α → Except PyError β) :
    (Except.error e : Except PyError α) >>= f = Except.error e := rfl

/-- Complete characterization of the `_makeSafe` selection loop: either no
element exceeds the initial running maximum and the accumulator is
returned unchanged, or the result is the first element attaining the
maximal thickness among those exceeding the initial running maximum. -/
theorem selectLoop_spec (fs : List AttFilter) :
    ∀ (acc : ℕ × AttFilter × ℚ) (k : ℕ),
      (selectLoop fs acc k = acc ∧ ∀ g ∈ fs, g.thickness ≤ acc.2.2) ∨
      (∃ j, j < fs.length ∧
        selectLoop fs acc k =
          (k + j, fs.getD j default, (fs.getD j default).thickness) ∧
        acc.2.2 < (fs.getD j default).thickness ∧
        (∀ g ∈ fs, g.thickness ≤ (fs.getD j default).thickness) ∧
        (∀ l, l < j →
          (fs.getD l default).thickness < (fs.getD j default).thickness)) := by
  induction fs with
  | nil =>
    intro acc k
    left
    exact ⟨rfl, by simp⟩
  | cons f rest ih =>
    intro acc k
    by_cases hc : f.thickness > acc.2.2
    · have hstep : selectLoop (f :: rest) acc k =
          selectLoop rest (k, f, f.thickness) (k + 1) := by
        simp [selectLoop, hc]
      rcases ih (k, f, f.thickness) (k + 1) with
        ⟨hres, hle⟩ | ⟨j, hj, hres, hgt, hmax, hfirst⟩
      · right
        refine ⟨0, by simp, ?_, by simpa using hc, ?_, ?_⟩
        · rw [hstep, hres]; simp
        · intro g hg
          rcases List.mem_cons.mp hg with rfl | hg'
          · simp
          · simpa using hle g hg'
        · intro l hl; omega
      · right
        refine ⟨j + 1, by simpa using hj, ?_, ?_, ?_, ?_⟩
        · rw [hstep, hres]
          have hk : k + 1 + j = k + (j + 1) := by omega
          rw [hk, List.getD_cons_succ]
        · rw [List.getD_cons_succ]
          exact lt_trans hc hgt
        · intro g hg
          rw [List.getD_cons_succ]
          rcases List.mem_cons.mp hg with rfl | hg'
          · exact le_of_lt hgt
          · exact hmax g hg'
        · intro l hl
          rw [List.getD_cons_succ]
          cases l with
          | zero => rw [List.getD_cons_zero]; exact hgt
          | succ l' =>
            rw [List.getD_cons_succ]
            exact hfirst l' (by omega)
    · have hstep : selectLoop (f :: rest) acc k =
          selectLoop rest acc (k + 1) := by
        simp [selectLoop, hc]
      have hfle : f.thickness ≤ acc.2.2 := le_of_not_lt hc
      rcases ih acc (k + 1) with
        ⟨hres, hle⟩ | ⟨j, hj, hres, hgt, hmax, hfirst⟩
      · left
        refine ⟨by rw [hstep, hres], ?_⟩
        intro g hg
        rcases List.mem_cons.mp hg with rfl | hg'
        · exact hfle
        · exact hle g hg'
      · right
        refine ⟨j + 1, by simpa using hj, ?_, ?_, ?_, ?_⟩
        · rw [hstep, hres]
          have hk : k + 1 + j = k + (j + 1) := by omega
          rw [hk, List.getD_cons_succ]
        · rw [List.getD_cons_succ]
          exact hgt
        · intro g hg
          rw [List.getD_cons_succ]
          rcases List.mem_cons.mp hg with rfl | hg'
          · exact le_of_lt (lt_of_le_of_lt hfle hgt)
          · exact hmax g hg'
        · intro l hl
          rw [List.getD_cons_succ]
          cases l with
          | zero =>
            rw [List.getD_cons_zero]
            exact lt_of_le_of_lt hfle hgt
          | succ l' =>
            rw [List.getD_cons_succ]
            exact hfirst l' (by omega)

/-- The function `List.findIdx` returns `j` when the predicate holds at `j` and fails
strictly before it. -/
theorem findIdx_eq_of (p : AttFilter → Bool) :
    ∀ (l : List AttFilter) (j : ℕ), j < l.length →
      p (l.getD j default) = true →
      (∀ i, i < j → p (l.getD i default) = false) →
      l.findIdx p = j := by
  intro l
  induction l with
  | nil => intro j hj; simp at hj
  | cons a t ih =>
    intro j hj hpj hpi
    cases j with
    | zero =>
      rw [List.getD_cons_zero] at hpj
      simp [List.findIdx_cons, hpj]
    | succ j' =>
      have hpa : p a = false := by
        have := hpi 0 (Nat.succ_pos _)
        rwa [List.getD_cons_zero] at this
      have hrec : t.findIdx p = j' := by
        apply ih j' (by simpa using hj)
        · rw [List.getD_cons_succ] at hpj; exact hpj
        · intro i hi
          have := hpi (i + 1) (by omega)
          rwa [List.getD_cons_succ] at this
      simp [List.findIdx_cons, hpa, hrec]

/-- Membership of the `getD` element. -/
theorem getD_mem_of_lt (l : List AttFilter) (j : ℕ) (hj : j < l.length) :
    l.getD j default ∈ l := by
  rw [List.getD_eq_getElem l default hj]
  exact List.getElem_mem hj

/-- Under nonnegative thicknesses, the `_makeSafe` selection loop (running
maximum initialized at `filters[0]` and thickness `0`) selects exactly the
first filter of maximal thickness. -/
theorem selectLoop_firstMax (f0 : AttFilter) (rest : List AttFilter)
    (hnn : ∀ g ∈ f0 :: rest, 0 ≤ g.thickness) :
    (selectLoop (f0 :: rest) (0, f0, 0) 0).1 = firstMaxIdx (f0 :: rest) ∧
    (selectLoop (f0 :: rest) (0, f0, 0) 0).2.1 =
      (f0 :: rest).getD (firstMaxIdx (f0 :: rest)) default := by
  rcases selectLoop_spec (f0 :: rest) (0, f0, 0) 0 with
    ⟨hres, hle⟩ | ⟨j, hj, hres, _hgt, hmax, hfirst⟩
  · have hall : ∀ g ∈ f0 :: rest, g.thickness = 0 := fun g hg =>
      le_antisymm (by simpa using hle g hg) (hnn g hg)
    have hidx : firstMaxIdx (f0 :: rest) = 0 := by
      unfold firstMaxIdx
      apply findIdx_eq_of _ _ 0 (by simp)
      · rw [List.getD_cons_zero]
        simp only [decide_eq_true_eq]
        intro g hg
        rw [hall g hg, hall f0 (List.mem_cons_self f0 rest)]
      · intro i hi; omega
    rw [hres, hidx]
    exact ⟨rfl, by simp⟩
  · have hidx : firstMaxIdx (f0 :: rest) = j := by
      unfold firstMaxIdx
      apply findIdx_eq_of _ _ j hj
      · simp only [decide_eq_true_eq]
        exact hmax
      · intro i hi
        simp only [decide_eq_false_iff_not]
        intro hcontra
        exact absurd (hcontra _ (getD_mem_of_lt _ j hj))
          (not_le.mpr (hfirst i hi))
    rw [hres, hidx]
    exact ⟨by simp, rfl⟩

/-- Case analysis of `_makeSafe` on a configured attenuator with a
non-empty filter list of nonnegative thicknesses: the selected filter is
the first one of maximal thickness; if it is already inserted nothing is
commanded and `True` is returned, otherwise exactly one `insert` of that
filter plus the settle wait is commanded and the result is the re-checked
insertion state. -/
theorem makeSafe_cases (fs : List AttFilter) (hne : fs ≠ [])
    (hnn : ∀ g ∈ fs, 0 ≤ g.thickness) :
    ((fs.getD (firstMaxIdx fs) default).inserted = true ∧
      makeSafe (some fs) = .ok (true, [])) ∨
    ((fs.getD (firstMaxIdx fs) default).inserted = false ∧
      makeSafe (some fs) =
        .ok ((fs.getD (firstMaxIdx fs) default).insertWorks,
          [.insert (firstMaxIdx fs), .settle])) := by
  obtain ⟨f0, rest, rfl⟩ : ∃ f0 rest, fs = f0 :: rest := by
    cases fs with
    | nil => exact absurd rfl hne
    | cons a t => exact ⟨a, t, rfl⟩
  obtain ⟨h1, h2⟩ := selectLoop_firstMax f0 rest hnn
  by_cases hins : ((f0 :: rest).getD (firstMaxIdx (f0 :: rest)) default).inserted
  · left
    refine ⟨hins, ?_⟩
    simp only [makeSafe]
    rw [h1, h2, if_pos hins]
  · right
    refine ⟨by simpa using hins, ?_⟩
    simp only [makeSafe]
    rw [h1, h2]
    by_cases hw : ((f0 :: rest).getD (firstMaxIdx (f0 :: rest)) default).insertWorks
    · rw [if_neg hins, if_pos hw, hw]
    · rw [if_neg hins, if_neg hw]
      rw [Bool.not_eq_true] at hw
      rw [hw]

/-- Success-path closed form of `calcDistanceForSize`: with a nonzero
energy, a nonzero unfocused FWHM and a successfully computed focal length,
no division raises and the two symmetric roots are returned. -/
theorem calcDistanceForSize_ok (delta : ℝ) (lensset : List (ℝ × Option ℝ))
    (E fw s F lam W ZR : ℝ) (hE : E ≠ 0) (hfw : fw ≠ 0)
    (hF : calcFocalLength delta lensset = .ok F) (hFne : F ≠ 0)
    (hlam : lam = 12.398 / E * 1e-10)
    (hW : W = lam / Real.pi * F / (fw * 2 / 2.35))
    (hZR : ZR = Real.pi * W ^ 2 / lam) :
    calcDistanceForSize delta lensset E fw s =
      .ok (-1 * Real.sqrt ((s * 2 / 2.35 / W) ^ 2 - 1) * ZR + F,
        1 * Real.sqrt ((s * 2 / 2.35 / W) ^ 2 - 1) * ZR + F) := by
  subst hZR; subst hW; subst hlam
  have hlam_ne : (12.398 / E * 1e-10 : ℝ) ≠ 0 :=
    mul_ne_zero (div_ne_zero (by norm_num) hE) (by norm_num)
  have hw_ne : (fw * 2 / 2.35 : ℝ) ≠ 0 :=
    div_ne_zero (mul_ne_zero hfw (by norm_num)) (by norm_num)
  have hW_ne : (12.398 / E * 1e-10 / Real.pi * F / (fw * 2 / 2.35) : ℝ) ≠ 0 :=
    div_ne_zero
      (mul_ne_zero (div_ne_zero hlam_ne Real.pi_ne_zero) hFne) hw_ne
  have e1 : pydiv 12.398 E = .ok (12.398 / E) := pydiv_ok _ hE
  have e2 : pydiv (12.398 / E * 1e-10 / Real.pi * F) (fw * 2 / 2.35) =
      .ok (12.398 / E * 1e-10 / Real.pi * F / (fw * 2 / 2.35)) :=
    pydiv_ok _ hw_ne
  have e3 : pydiv
      (Real.pi * (12.398 / E * 1e-10 / Real.pi * F / (fw * 2 / 2.35)) ^ 2)
      (12.398 / E * 1e-10) =
      .ok (Real.pi * (12.398 / E * 1e-10 / Real.pi * F / (fw * 2 / 2.35)) ^ 2
        / (12.398 / E * 1e-10)) :=
    pydiv_ok _ hlam_ne
  have e4 : pydiv (s * 2 / 2.35)
      (12.398 / E * 1e-10 / Real.pi * F / (fw * 2 / 2.35)) =
      .ok (s * 2 / 2.35 / (12.398 / E * 1e-10 / Real.pi * F / (fw * 2 / 2.35))) :=
    pydiv_ok _ hW_ne
  simp only [calcDistanceForSize, hF, e1, e2, e3, e4, ok_bind]

/-- Success-path closed form of `calcBeamFWHM` under the same
conditions. -/
theorem calcBeamFWHM_ok (delta : ℝ) (lensset : List (ℝ × Option ℝ))
    (E fw d F lam W ZR : ℝ) (hE : E ≠ 0) (hfw : fw ≠ 0)
    (hF : calcFocalLength delta lensset = .ok F) (hFne : F ≠ 0)
    (hlam : lam = 1.2398 / E * 1e-9)
    (hW : W = lam / Real.pi * F / (fw * 2 / 2.35))
    (hZR : ZR = Real.pi * W ^ 2 / lam) :
    calcBeamFWHM delta lensset E fw d =
      .ok (W * Real.sqrt (1 + (d - F) ^ 2 / ZR ^ 2) * 2.35 / 2) := by
  subst hZR; subst hW; subst hlam
  have hlam_ne : (1.2398 / E * 1e-9 : ℝ) ≠ 0 :=
    mul_ne_zero (div_ne_zero (by norm_num) hE) (by norm_num)
  have hw_ne : (fw * 2 / 2.35 : ℝ) ≠ 0 :=
    div_ne_zero (mul_ne_zero hfw (by norm_num)) (by norm_num)
  have hW_ne : (1.2398 / E * 1e-9 / Real.pi * F / (fw * 2 / 2.35) : ℝ) ≠ 0 :=
    div_ne_zero
      (mul_ne_zero (div_ne_zero hlam_ne Real.pi_ne_zero) hFne) hw_ne
  have hZR_ne : (Real.pi * (1.2398 / E * 1e-9 / Real.pi * F / (fw * 2 / 2.35)) ^ 2
      / (1.2398 / E * 1e-9) : ℝ) ≠ 0 :=
    div_ne_zero (mul_ne_zero Real.pi_ne_zero (pow_ne_zero _ hW_ne)) hlam_ne
  have e1 : pydiv 1.2398 E = .ok (1.2398 / E) := pydiv_ok _ hE
  have e2 : pydiv (1.2398 / E * 1e-9 / Real.pi * F) (fw * 2 / 2.35) =
      .ok (1.2398 / E * 1e-9 / Real.pi * F / (fw * 2 / 2.35)) :=
    pydiv_ok _ hw_ne
  have e3 : pydiv
      (Real.pi * (1.2398 / E * 1e-9 / Real.pi * F / (fw * 2 / 2.35)) ^ 2)
      (1.2398 / E * 1e-9) =
      .ok (Real.pi * (1.2398 / E * 1e-9 / Real.pi * F / (fw * 2 / 2.35)) ^ 2
        / (1.2398 / E * 1e-9)) :=
    pydiv_ok _ hlam_ne
  have e4 : pydiv ((d - F) ^ 2)
      ((Real.pi * (1.2398 / E * 1e-9 / Real.pi * F / (fw * 2 / 2.35)) ^ 2
        / (1.2398 / E * 1e-9)) ^ 2) =
      .ok ((d - F) ^ 2 /
        (Real.pi * (1.2398 / E * 1e-9 / Real.pi * F / (fw * 2 / 2.35)) ^ 2
          / (1.2398 / E * 1e-9)) ^ 2) :=
    pydiv_ok _ (pow_ne_zero _ hZR_ne)
  simp only [calcBeamFWHM, hF, e1, e2, e3, e4, ok_bind]

/-- A successfully computed focal length is nonzero (it is `1/x` for a
nonzero accumulated inverse `x`). -/
theorem calcFocalLength_ne_zero (delta : ℝ) (lensset : List (ℝ × Option ℝ))
    (F : ℝ) (hF : calcFocalLength delta lensset = .ok F) : F ≠ 0 := by
  unfold calcFocalLength at hF
  rcases h : lensset.foldlM (ftotInverseStep delta) 0 with e | finv
  · rw [h, error_bind] at hF
    cases hF
  · rw [h, ok_bind] at hF
    unfold pydiv at hF
    by_cases hz : finv = 0
    · rw [if_pos hz] at hF; cases hF
    · rw [if_neg hz] at hF
      rw [← Except.ok.inj hF]
      exact one_div_ne_zero hz

/-- Focal length of the single-lens test configuration
(`delta = 1`, one lens of radius `2`). -/
theorem calcFocalLength_single : calcFocalLength 1 [(1, some 2)] = .ok 1 := by
  norm_num [calcFocalLength, ftotInverseStep, calcFocalLengthForSingleLens,
    List.foldlM, pydiv, ok_bind, error_bind]

/-- Beam FWHM of the single-lens test configuration at the focal distance
`d = 1`. -/
theorem calcBeamFWHM_unit :
    calcBeamFWHM 1 [(1, some 2)] 12.398 (2.35 / 2) 1 =
      .ok (1e-10 / Real.pi * 2.35 / 2) := by
  have h := calcBeamFWHM_ok 1 [(1, some 2)] 12.398 (2.35 / 2) 1 1 1e-10
    (1e-10 / Real.pi) (1e-10 / Real.pi) (by norm_num) (by norm_num)
    calcFocalLength_single (by norm_num) (by norm_num) (by norm_num)
    (by
      have hpi := Real.pi_ne_zero
      field_simp
      ring)
  rw [h]
  norm_num [Real.sqrt_one]

/-! ## Claim theorems -/

/-- C1: for every pseudo-position target, `LensStackBase.move` first runs
the `_makeSafe` interlock, and the underlying positioner receives a motion
command exactly when `_makeSafe()` returned `True`; when it returns
`False` the move is refused (`None` is returned) and no motion command is
sent.  The event trace shows all interlock commands preceding the (at most
one) motion command. -/
theorem C1_interlock_gates_motion (att : Option (List AttFilter))
    (position : ℚ) :
    (∀ e, makeSafe att = .error e → move att position = .error e) ∧
    (∀ cmds, makeSafe att = .ok (true, cmds) →
      move att position =
        .ok (cmds.map MoveEvent.att ++ [MoveEvent.motion position],
          some position)) ∧
    (∀ cmds, makeSafe att = .ok (false, cmds) →
      move att position = .ok (cmds.map MoveEvent.att, none)) :=
  ⟨fun _ he => by simp [move, he], fun _ h => by simp [move, h],
    fun _ h => by simp [move, h]⟩

/-- Witness for C1: with a single never-inserting filter, the interlock
returns `False` and the trace contains no motion command. -/
theorem C1_interlock_gates_motion_witness :
    makeSafe (some [⟨1, false, false⟩]) = .ok (false, [.insert 0, .settle]) ∧
    move (some [⟨1, false, false⟩]) 5 =
      .ok ([.att (.insert 0), .att .settle], none) :=
  ⟨by rfl,
    (C1_interlock_gates_motion (some [⟨1, false, false⟩]) 5).2.2
      [.insert 0, .settle] (by rfl)⟩

/-- C3 (code bug): on a lens set whose radii are all `None`, the
accumulated inverse focal power stays `0` and `calcFocalLength` executes
the unguarded division `1./ftot_inverse`, raising `ZeroDivisionError`
instead of the spec's `NoFocusingPower` error (which does not exist in the
code). -/
theorem C3_all_absent_radii_zero_division :
    calcFocalLength 1 [(1, none), (3, none)] = .error .zeroDivisionError := by
  simp [calcFocalLength, ftotInverseStep, List.foldlM, pydiv, ok_bind,
    error_bind]

/-- C6: with calibration presets `P1=(0,0,0)` and `P2=(10,20,100)` and a
requested `calib_z = 50` (no beam-size change: requested beam size equals
the readback), `forward` returns `x = 5`, `y = 10`, `z = 50`. -/
theorem C6_forward_midpoint_interpolation :
    forward 1 [] 1 1 0 1 (some (0, 0, 0, 10, 20, 100)) 0 50 0 =
      .ok (some ⟨NpVal.scalar 5, NpVal.scalar 10, NpVal.scalar 50⟩) := by
  norm_num [forward, npIsclose, pydiv, NpVal.map, ok_bind, error_bind]

/-- C8 (code bug): with a degenerate calibration (both preset points at the
same z, here `z1 = z2 = 5`), `forward` evaluates the interpolation slope
`(pos[0]-pos[3])/(pos[2]-pos[5])` with a zero denominator and raises
`ZeroDivisionError`; there is no explicit degenerate-calibration error in
the code. -/
theorem C8_degenerate_calibration_zero_division :
    forward 1 [] 1 1 0 1 (some (0, 0, 5, 1, 2, 5)) 0 50 0 =
      .error .zeroDivisionError := by
  norm_num [forward, npIsclose, pydiv, ok_bind, error_bind]

/-- C9 (code bug): `CreateLens` copies the configuration file to the dated
backup path, but then opens the dated backup path (not the original) for
writing and dumps the path string (not the new lens set): afterwards the
original path still holds the old contents and the backup path holds the
yaml dump of the path string, so the new lens set is never persisted and
the backup does not hold the previous contents. -/
theorem C9_CreateLens_overwrites_backup_not_original :
    (CreateLens "c.yaml" "d" [(2, some 1)]
        (fun p => if p = "c.yaml" then some (.raw "old") else none)).map
        (fun fs => (fs "c.yaml", fs "c.yamld")) =
      .ok (some (.raw "old"), some (.ofStr "c.yaml")) := by
  rfl

/-- C2 (code bug): for a target FWHM strictly below the waist
(here target `0` with waist `1e-10/pi > 0`), `calcDistanceForSize` raises
no error at all: `np.sqrt` receives the negative argument
`(size/waist)**2 - 1 = -1` (yielding NaN in numpy, embedded as
`Real.sqrt = 0`) and the function returns a value; the code contains no
`BeamSizeUnreachable` error.  The second conjunct shows the square-root
argument at this input is negative. -/
theorem C2_unreachable_size_raises_no_error :
    calcDistanceForSize 1 [(1, some 2)] 12.398 (2.35 / 2) 0 = .ok (1, 1) ∧
    (((0 : ℝ) * 2 / 2.35) /
        (12.398 / 12.398 * 1e-10 / Real.pi * 1 / 1)) ^ 2 - 1 < 0 := by
  have hpi := Real.pi_ne_zero
  have hs : Real.sqrt (-1 : ℝ) = 0 := by
    rw [Real.sqrt_eq_zero']; norm_num
  constructor
  · norm_num [calcDistanceForSize, calcFocalLength, ftotInverseStep,
      calcFocalLengthForSingleLens, List.foldlM, pydiv, ok_bind, error_bind,
      hs, hpi]
  · norm_num

/-- C7 counterexample: with negative thicknesses the running maximum,
initialized to `0`, never updates, so `_makeSafe` selects and commands
insertion of `filters[0]` even though the filter of maximal thickness is
the second one: the claim's selection rule fails as stated. -/
theorem C7_counterexample_negative_thickness :
    makeSafe (some [⟨-2, false, false⟩, ⟨-1, false, false⟩]) =
      .ok (false, [.insert 0, .settle]) ∧
    firstMaxIdx [⟨-2, false, false⟩, ⟨-1, false, false⟩] = 1 := by
  exact ⟨rfl, rfl⟩

/-- C7 (amended): `_makeSafe` returns `False` immediately when no
attenuator is configured; otherwise, provided the filter list is
non-empty and all thicknesses are nonnegative, it selects the filter of
maximal thickness with the first element winning ties, commands its
insertion only if it is not already inserted, and returns `True` exactly
when that filter ends up inserted (the re-checked state, which is
`insertWorks` after an insertion attempt). -/
theorem C7_makeSafe_selection_and_result (fs : List AttFilter)
    (hne : fs ≠ []) (hnn : ∀ g ∈ fs, 0 ≤ g.thickness) :
    makeSafe none = .ok (false, []) ∧
    ((fs.getD (firstMaxIdx fs) default).inserted = true →
      makeSafe (some fs) = .ok (true, [])) ∧
    ((fs.getD (firstMaxIdx fs) default).inserted = false →
      makeSafe (some fs) =
        .ok ((fs.getD (firstMaxIdx fs) default).insertWorks,
          [.insert (firstMaxIdx fs), .settle])) := by
  refine ⟨rfl, ?_, ?_⟩ <;> intro hins <;>
    rcases makeSafe_cases fs hne hnn with ⟨h, hms⟩ | ⟨h, hms⟩ <;>
      first
        | exact hms
        | (rw [h] at hins; cases hins)

/-- Witness for C7: three nonnegative filters with a thickness tie at the
maximum; the first maximal filter (index 1) is selected, inserted, and the
interlock reports success. -/
theorem C7_makeSafe_selection_witness :
    (([⟨1, false, true⟩, ⟨2, false, true⟩, ⟨2, true, false⟩] :
        List AttFilter) ≠ []) ∧
    (∀ g ∈ ([⟨1, false, true⟩, ⟨2, false, true⟩, ⟨2, true, false⟩] :
        List AttFilter), 0 ≤ g.thickness) ∧
    makeSafe none = .ok (false, []) ∧
    makeSafe (some [⟨1, false, true⟩, ⟨2, false, true⟩, ⟨2, true, false⟩]) =
      .ok (true, [.insert 1, .settle]) :=
  ⟨by simp, by decide,
    (C7_makeSafe_selection_and_result
      [⟨1, false, true⟩, ⟨2, false, true⟩, ⟨2, true, false⟩]
      (by simp) (by decide)).1,
    (C7_makeSafe_selection_and_result
      [⟨1, false, true⟩, ⟨2, false, true⟩, ⟨2, true, false⟩]
      (by simp) (by decide)).2.2 (by decide)⟩

/-- C10 counterexample: with negative thicknesses the first filter of
maximal thickness (index 1) is already inserted, yet `_makeSafe` commands
insertion of a different filter (index 0), performs the settle wait, and
returns `False`: the claim's frame condition fails as stated. -/
theorem C10_counterexample_negative_thickness :
    firstMaxIdx [⟨-2, false, false⟩, ⟨-1, true, true⟩] = 1 ∧
    (([⟨-2, false, false⟩, ⟨-1, true, true⟩] :
        List AttFilter).getD 1 default).inserted = true ∧
    makeSafe (some [⟨-2, false, false⟩, ⟨-1, true, true⟩]) =
      .ok (false, [.insert 0, .settle]) := by
  exact ⟨rfl, rfl, rfl⟩

/-- C10 (amended): for a configured attenuator with a non-empty filter
list of nonnegative thicknesses, if the selected first-maximal-thickness
filter is already inserted then `_makeSafe` issues no command at all
(returning `True` with the filter state unchanged), and on any call the
command trace is either empty or exactly an insertion of that one
selected filter followed by the settle wait — never any other filter. -/
theorem C10_makeSafe_frame (fs : List AttFilter) (hne : fs ≠ [])
    (hnn : ∀ g ∈ fs, 0 ≤ g.thickness) :
    ((fs.getD (firstMaxIdx fs) default).inserted = true →
      makeSafe (some fs) = .ok (true, []) ∧ applyCommands fs [] = fs) ∧
    (∀ safe cmds, makeSafe (some fs) = .ok (safe, cmds) →
      cmds = [] ∨ cmds = [.insert (firstMaxIdx fs), .settle]) := by
  rcases makeSafe_cases fs hne hnn with ⟨h, hms⟩ | ⟨h, hms⟩
  · refine ⟨fun _ => ⟨hms, rfl⟩, fun safe cmds heq => ?_⟩
    rw [hms] at heq
    left
    exact ((Prod.mk.injEq _ _ _ _).mp (Except.ok.inj heq)).2.symm
  · refine ⟨fun hins => ?_, fun safe cmds heq => ?_⟩
    · rw [h] at hins; cases hins
    · rw [hms] at heq
      right
      exact ((Prod.mk.injEq _ _ _ _).mp (Except.ok.inj heq)).2.symm

/-- Witness for C10: the unique maximal filter (index 0) is already
inserted; no command is issued, the state is unchanged, and the empty
trace satisfies the at-most-one-insertion frame condition. -/
theorem C10_makeSafe_frame_witness :
    (([⟨3, true, false⟩, ⟨1, false, true⟩] : List AttFilter) ≠ []) ∧
    (∀ g ∈ ([⟨3, true, false⟩, ⟨1, false, true⟩] : List AttFilter),
      0 ≤ g.thickness) ∧
    (([⟨3, true, false⟩, ⟨1, false, true⟩] :
        List AttFilter).getD
        (firstMaxIdx [⟨3, true, false⟩, ⟨1, false, true⟩])
        default).inserted = true ∧
    makeSafe (some [⟨3, true, false⟩, ⟨1, false, true⟩]) = .ok (true, []) ∧
    applyCommands [⟨3, true, false⟩, ⟨1, false, true⟩] [] =
      [⟨3, true, false⟩, ⟨1, false, true⟩] :=
  ⟨by simp, by decide, by decide,
    ((C10_makeSafe_frame [⟨3, true, false⟩, ⟨1, false, true⟩]
      (by simp) (by decide)).1 (by decide)).1,
    ((C10_makeSafe_frame [⟨3, true, false⟩, ⟨1, false, true⟩]
      (by simp) (by decide)).1 (by decide)).2⟩

/-- C5: round-trip law.  For a positive energy, a lens set with focusing
power (successful `calcFocalLength`), a positive unfocused FWHM and any
distance `d`, feeding the beam FWHM computed by `calcBeamFWHM` at `d` back
into `calcDistanceForSize` succeeds and returns the pair of roots
`(F - |d-F|, F + |d-F|)`, one of which equals `d` exactly.  This relies on
the two differently written wavelength constants (`12.398/E*1e-10` and
`1.2398/E*1e-9`) agreeing, which they do (first conjunct). -/
theorem C5_distance_size_round_trip (delta : ℝ)
    (lensset : List (ℝ × Option ℝ)) (E fw d F s : ℝ)
    (hE : 0 < E) (hfw : 0 < fw)
    (hF : calcFocalLength delta lensset = .ok F)
    (hs : calcBeamFWHM delta lensset E fw d = .ok s) :
    (1.2398 / E * 1e-9 : ℝ) = 12.398 / E * 1e-10 ∧
    calcDistanceForSize delta lensset E fw s =
      .ok (F - |d - F|, F + |d - F|) ∧
    (F - |d - F| = d ∨ F + |d - F| = d) := by
  have hEne : E ≠ 0 := ne_of_gt hE
  have hfwne : fw ≠ 0 := ne_of_gt hfw
  have hFne : F ≠ 0 := calcFocalLength_ne_zero delta lensset F hF
  have hnum : (1.2398 : ℝ) * 1e-9 = 12.398 * 1e-10 := by norm_num
  have hlam_eq : (1.2398 / E * 1e-9 : ℝ) = 12.398 / E * 1e-10 := by
    calc (1.2398 / E * 1e-9 : ℝ) = 1.2398 * 1e-9 / E := by ring
      _ = 12.398 * 1e-10 / E := by rw [hnum]
      _ = 12.398 / E * 1e-10 := by ring
  set lam : ℝ := 12.398 / E * 1e-10 with hlamdef
  set W : ℝ := lam / Real.pi * F / (fw * 2 / 2.35) with hWdef
  set ZR : ℝ := Real.pi * W ^ 2 / lam with hZRdef
  have hlampos : (0 : ℝ) < lam := by rw [hlamdef]; positivity
  have hWne : W ≠ 0 := by
    rw [hWdef]
    exact div_ne_zero
      (mul_ne_zero (div_ne_zero (ne_of_gt hlampos) Real.pi_ne_zero) hFne)
      (div_ne_zero (mul_ne_zero hfwne (by norm_num)) (by norm_num))
  have hZRpos : (0 : ℝ) < ZR := by
    rw [hZRdef]
    exact div_pos (mul_pos Real.pi_pos (pow_two_pos_of_ne_zero hWne)) hlampos
  have hB := calcBeamFWHM_ok delta lensset E fw d F lam W ZR hEne hfwne hF
    hFne (hlamdef.trans hlam_eq.symm) hWdef hZRdef
  rw [hB] at hs
  have hseq : W * Real.sqrt (1 + (d - F) ^ 2 / ZR ^ 2) * 2.35 / 2 = s :=
    Except.ok.inj hs
  have hD := calcDistanceForSize_ok delta lensset E fw s F lam W ZR hEne
    hfwne hF hFne hlamdef hWdef hZRdef
  have hXnn : (0 : ℝ) ≤ 1 + (d - F) ^ 2 / ZR ^ 2 := by positivity
  have hsize : s * 2 / 2.35 = W * Real.sqrt (1 + (d - F) ^ 2 / ZR ^ 2) := by
    rw [← hseq]; ring
  have hratio : s * 2 / 2.35 / W = Real.sqrt (1 + (d - F) ^ 2 / ZR ^ 2) := by
    rw [hsize, mul_div_cancel_left₀ _ hWne]
  have harg : (s * 2 / 2.35 / W) ^ 2 - 1 = (d - F) ^ 2 / ZR ^ 2 := by
    rw [hratio, Real.sq_sqrt hXnn]; ring
  have hsqrt : Real.sqrt ((s * 2 / 2.35 / W) ^ 2 - 1) = |d - F| / ZR := by
    rw [harg, show (d - F) ^ 2 / ZR ^ 2 = ((d - F) / ZR) ^ 2 from by
      ring, Real.sqrt_sq_eq_abs, abs_div, abs_of_pos hZRpos]
  have hroot : Real.sqrt ((s * 2 / 2.35 / W) ^ 2 - 1) * ZR = |d - F| := by
    rw [hsqrt, div_mul_cancel₀ _ (ne_of_gt hZRpos)]
  refine ⟨hlam_eq, ?_, ?_⟩
  · rw [hD]
    have h1 : -1 * Real.sqrt ((s * 2 / 2.35 / W) ^ 2 - 1) * ZR + F =
        F - |d - F| := by
      rw [show -1 * Real.sqrt ((s * 2 / 2.35 / W) ^ 2 - 1) * ZR + F =
        F - Real.sqrt ((s * 2 / 2.35 / W) ^ 2 - 1) * ZR from by ring, hroot]
    have h2 : 1 * Real.sqrt ((s * 2 / 2.35 / W) ^ 2 - 1) * ZR + F =
        F + |d - F| := by
      rw [show 1 * Real.sqrt ((s * 2 / 2.35 / W) ^ 2 - 1) * ZR + F =
        F + Real.sqrt ((s * 2 / 2.35 / W) ^ 2 - 1) * ZR from by ring, hroot]
    rw [h1, h2]
  · rcases le_total d F with hdF | hdF
    · left
      rw [abs_of_nonpos (by linarith : d - F ≤ 0)]
      ring
    · right
      rw [abs_of_nonneg (by linarith : (0 : ℝ) ≤ d - F)]
      ring

/-- Witness for C5: the single-lens configuration at its focal distance
`d = 1`; the beam FWHM computed forward feeds back into
`calcDistanceForSize`, which returns the root pair collapsing onto
`d = 1`. -/
theorem C5_distance_size_round_trip_witness :
    (0 : ℝ) < 12.398 ∧ (0 : ℝ) < 2.35 / 2 ∧
    calcFocalLength 1 [(1, some 2)] = .ok 1 ∧
    calcBeamFWHM 1 [(1, some 2)] 12.398 (2.35 / 2) 1 =
      .ok (1e-10 / Real.pi * 2.35 / 2) ∧
    ((1.2398 / 12.398 * 1e-9 : ℝ) = 12.398 / 12.398 * 1e-10 ∧
      calcDistanceForSize 1 [(1, some 2)] 12.398 (2.35 / 2)
          (1e-10 / Real.pi * 2.35 / 2) =
        .ok (1 - |1 - 1|, 1 + |1 - 1|) ∧
      ((1 : ℝ) - |1 - 1| = 1 ∨ (1 : ℝ) + |1 - 1| = 1)) :=
  ⟨by norm_num, by norm_num, calcFocalLength_single, calcBeamFWHM_unit,
    C5_distance_size_round_trip 1 [(1, some 2)] 12.398 (2.35 / 2) 1 1
      (1e-10 / Real.pi * 2.35 / 2) (by norm_num) (by norm_num)
      calcFocalLength_single calcBeamFWHM_unit⟩

/-- In the `Except` monad, `pure` is `ok`. -/
theorem except_pure {α : Type} (a : α) :
    (pure a : Except PyError α) = .ok a := rfl

/-- Characterization of `forward` in the beam-size branch: when the
requested beam size is not `np.isclose` to the readback, the pair of
distances from `calcDistanceForSize` is mapped componentwise through
`(d - zoffset) * zdir * 1000` and through the x/y interpolation, with no
selection of a single root. -/
theorem forward_beam_branch (delta : ℝ) (lensset : List (ℝ × Option ℝ))
    (E bw zoffset zdir p0 p1 p2 p3 p4 p5 cur cz b d1 d2 : ℝ)
    (hnc : ¬ npIsclose b cur)
    (hdist : calcDistanceForSize delta lensset E bw b = .ok (d1, d2))
    (hz : p2 - p5 ≠ 0) :
    forward delta lensset E bw zoffset zdir (some (p0, p1, p2, p3, p4, p5))
        cur cz b =
      .ok (some ⟨
        NpVal.pair
          ((p0 - p3) / (p2 - p5) * ((d1 - zoffset) * zdir * 1000 - p2) + p0)
          ((p0 - p3) / (p2 - p5) * ((d2 - zoffset) * zdir * 1000 - p2) + p0),
        NpVal.pair
          ((p1 - p4) / (p2 - p5) * ((d1 - zoffset) * zdir * 1000 - p2) + p1)
          ((p1 - p4) / (p2 - p5) * ((d2 - zoffset) * zdir * 1000 - p2) + p1),
        NpVal.pair ((d1 - zoffset) * zdir * 1000)
          ((d2 - zoffset) * zdir * 1000)⟩) := by
  simp only [forward, if_pos hnc, hdist, ok_bind, except_pure,
    pydiv_ok _ hz, NpVal.map]

/-- Evaluation of `calcDistanceForSize` on the single-lens configuration at a target
FWHM chosen to make the square-root argument equal to `1`: the two roots
are distinct. -/
theorem calcDistanceForSize_sqrt2 :
    calcDistanceForSize 1 [(1, some 2)] 12.398 (2.35 / 2)
        (Real.sqrt 2 * 1e-10 / Real.pi * 2.35 / 2) =
      .ok (1 - 1e-10 / Real.pi, 1 + 1e-10 / Real.pi) := by
  have hpi := Real.pi_ne_zero
  have h := calcDistanceForSize_ok 1 [(1, some 2)] 12.398 (2.35 / 2)
    (Real.sqrt 2 * 1e-10 / Real.pi * 2.35 / 2) 1 1e-10 (1e-10 / Real.pi)
    (1e-10 / Real.pi) (by norm_num) (by norm_num) calcFocalLength_single
    (by norm_num) (by norm_num) (by norm_num)
    (by field_simp; ring)
  rw [h]
  have hb : Real.sqrt 2 * 1e-10 / Real.pi * 2.35 / 2 * 2 / 2.35 /
      (1e-10 / Real.pi) = Real.sqrt 2 := by
    field_simp
    ring
  rw [hb, Real.sq_sqrt (by norm_num : (0 : ℝ) ≤ 2)]
  norm_num
  constructor <;> ring

/-- The tiny target FWHM used above is nowhere near a readback of `1000`,
so the beam-size branch of `forward` is taken. -/
theorem not_isclose_sqrt2 :
    ¬ npIsclose (Real.sqrt 2 * 1e-10 / Real.pi * 2.35 / 2) 1000 := by
  have hπ3 : (3 : ℝ) < Real.pi := Real.pi_gt_three
  have hs2 : Real.sqrt 2 ≤ 2 := by
    nlinarith [Real.sq_sqrt (by norm_num : (0 : ℝ) ≤ 2), Real.sqrt_nonneg 2]
  have hb0 : (0 : ℝ) ≤ Real.sqrt 2 * 1e-10 / Real.pi * 2.35 / 2 := by
    have := Real.pi_pos
    positivity
  have h1 : Real.sqrt 2 * 1e-10 / Real.pi ≤ 2 * 1e-10 / 3 := by
    apply div_le_div₀ (by norm_num) (by nlinarith) (by norm_num)
      (le_of_lt hπ3)
  have hb1 : Real.sqrt 2 * 1e-10 / Real.pi * 2.35 / 2 ≤ 1 := by nlinarith
  intro hcl
  unfold npIsclose at hcl
  rw [abs_of_nonpos (by linarith), abs_of_nonneg (by norm_num : (0:ℝ) ≤ 1000)]
    at hcl
  linarith

/-- C4 counterexample: in the beam-size branch `forward` returns a
two-valued `z` (both roots mapped through the affine formula), with the two
components distinct: no single real scalar target is produced and no root
is selected. -/
theorem C4_counterexample_two_valued_z :
    forward 1 [(1, some 2)] 12.398 (2.35 / 2) 0 1 (some (0, 0, 0, 0, 0, 100))
        1000 0 (Real.sqrt 2 * 1e-10 / Real.pi * 2.35 / 2) =
      .ok (some ⟨NpVal.pair 0 0, NpVal.pair 0 0,
        NpVal.pair ((1 - 1e-10 / Real.pi - 0) * 1 * 1000)
          ((1 + 1e-10 / Real.pi - 0) * 1 * 1000)⟩) ∧
    (1 - 1e-10 / Real.pi - 0) * 1 * 1000 ≠
      (1 + 1e-10 / Real.pi - 0) * 1 * 1000 := by
  constructor
  · rw [forward_beam_branch 1 [(1, some 2)] 12.398 (2.35 / 2) 0 1 0 0 0 0 0
      100 1000 0 (Real.sqrt 2 * 1e-10 / Real.pi * 2.35 / 2)
      (1 - 1e-10 / Real.pi) (1 + 1e-10 / Real.pi) not_isclose_sqrt2
      calcDistanceForSize_sqrt2 (by norm_num)]
    norm_num
  · intro heq
    have hx : (0 : ℝ) < 1e-10 / Real.pi := by
      have := Real.pi_pos
      positivity
    nlinarith

/-- C4 (amended): in the beam-size branch (requested beam size not
`np.isclose` to the readback) with a successful `calcDistanceForSize` and a
non-degenerate calibration, `forward` applies
`z = (d - zoffset) * zdir * 1000` and the x/y interpolation componentwise
to BOTH candidate distances, returning a two-valued position; it performs
no selection of a single physically reachable root. -/
theorem C4_forward_maps_both_roots (delta : ℝ)
    (lensset : List (ℝ × Option ℝ))
    (E bw zoffset zdir p0 p1 p2 p3 p4 p5 cur cz b d1 d2 : ℝ)
    (hnc : ¬ npIsclose b cur)
    (hdist : calcDistanceForSize delta lensset E bw b = .ok (d1, d2))
    (hz : p2 - p5 ≠ 0) :
    forward delta lensset E bw zoffset zdir (some (p0, p1, p2, p3, p4, p5))
        cur cz b =
      .ok (some ⟨
        NpVal.pair
          ((p0 - p3) / (p2 - p5) * ((d1 - zoffset) * zdir * 1000 - p2) + p0)
          ((p0 - p3) / (p2 - p5) * ((d2 - zoffset) * zdir * 1000 - p2) + p0),
        NpVal.pair
          ((p1 - p4) / (p2 - p5) * ((d1 - zoffset) * zdir * 1000 - p2) + p1)
          ((p1 - p4) / (p2 - p5) * ((d2 - zoffset) * zdir * 1000 - p2) + p1),
        NpVal.pair ((d1 - zoffset) * zdir * 1000)
          ((d2 - zoffset) * zdir * 1000)⟩) :=
  forward_beam_branch delta lensset E bw zoffset zdir p0 p1 p2 p3 p4 p5 cur
    cz b d1 d2 hnc hdist hz

/-- Witness for C4: the concrete two-root configuration instantiating the
amended claim. -/
theorem C4_forward_maps_both_roots_witness :
    ¬ npIsclose (Real.sqrt 2 * 1e-10 / Real.pi * 2.35 / 2) 1000 ∧
    calcDistanceForSize 1 [(1, some 2)] 12.398 (2.35 / 2)
        (Real.sqrt 2 * 1e-10 / Real.pi * 2.35 / 2) =
      .ok (1 - 1e-10 / Real.pi, 1 + 1e-10 / Real.pi) ∧
    ((0 : ℝ) - 100 ≠ 0) ∧
    forward 1 [(1, some 2)] 12.398 (2.35 / 2) 0 1 (some (0, 0, 0, 0, 0, 100))
        1000 0 (Real.sqrt 2 * 1e-10 / Real.pi * 2.35 / 2) =
      .ok (some ⟨
        NpVal.pair
          ((0 - 0) / (0 - 100) * ((1 - 1e-10 / Real.pi - 0) * 1 * 1000 - 0) + 0)
          ((0 - 0) / (0 - 100) * ((1 + 1e-10 / Real.pi - 0) * 1 * 1000 - 0) + 0),
        NpVal.pair
          ((0 - 0) / (0 - 100) * ((1 - 1e-10 / Real.pi - 0) * 1 * 1000 - 0) + 0)
          ((0 - 0) / (0 - 100) * ((1 + 1e-10 / Real.pi - 0) * 1 * 1000 - 0) + 0),
        NpVal.pair ((1 - 1e-10 / Real.pi - 0) * 1 * 1000)
          ((1 + 1e-10 / Real.pi - 0) * 1 * 1000)⟩) :=
  ⟨not_isclose_sqrt2, calcDistanceForSize_sqrt2, by norm_num,
    C4_forward_maps_both_roots 1 [(1, some 2)] 12.398 (2.35 / 2) 0 1 0 0 0 0
      0 100 1000 0 (Real.sqrt 2 * 1e-10 / Real.pi * 2.35 / 2)
      (1 - 1e-10 / Real.pi) (1 + 1e-10 / Real.pi) not_isclose_sqrt2
      calcDistanceForSize_sqrt2 (by norm_num)⟩

end LensPy
